import Mathlib

/-!
Verification of the Tongy-Agent core against its specification.

This file gives a shallow embedding, in Lean 4, of the parts of the
Tongy-Agent repository that the specification's claims are about:

* the sandbox policy engine (src/tongy_agent/sandbox.py),
* the retry/backoff wrapper (src/tongy_agent/retry.py and
  src/tongy_agent/schema/schema.py),
* the conversation data model, summarization and the orchestration loop
  (src/tongy_agent/agent.py, src/tongy_agent/llm/base.py),
* the file-edit tool (src/tongy_agent/tools/file_tools.py),
* the todo tool (src/tongy_agent/tools/todo_tool.py).

Python strings are modelled as lists of characters (so that the string
scanning functions of the source can be translated operation by
operation), Python floats as rationals (all the computations the claims
touch are exact powers of two, where the two agree), and the
filesystem / wall clock / model backend as explicit parameters.
-/

namespace TongyAgent

/-! ## Sandbox policy engine (src/tongy_agent/sandbox.py)

Filesystem paths are modelled as the lists of components of their
canonical (resolved) form; `Path.resolve` itself is OS state and is
abstracted by taking every path already in canonical form.  On those,
`Path.relative_to(root)` succeeds exactly when the components of `root`
are a leading segment of the components of the path. -/

/-- `path.relative_to(root)` succeeding: `path` is `root` itself or a
descendant of it (component-wise). -/
def pathUnder (path root : List String) : Bool :=
  root.isPrefixOf path

/-- The sandbox configuration (`SandboxConfig` in schema.py), restricted to
the fields the policy engine reads.  Paths are kept as canonical component
lists, commands as character lists (see below). -/
structure SandboxConfig where
  allowed_paths : List (List String)
  forbidden_paths : List (List String)
  max_file_size : Nat
  allowed_commands : List (List Char)
  forbidden_commands : List (List Char)

/-- `FileSandbox` after `_resolve_paths`: the resolved allowed and forbidden
path lists. -/
structure FileSandbox where
  allowed_paths : List (List String)
  forbidden_paths : List (List String)

/-- `FileSandbox.is_allowed`: forbidden roots are checked first, in list
order; if none matches and the allowed list is empty everything else is
allowed; otherwise the path must sit under some allowed root.  The
`try/except` wrapper around path resolution cannot fire in this pure
model and is omitted. -/
def FileSandbox.is_allowed (sb : FileSandbox) (path : List String) :
    Bool × Option String :=
  match sb.forbidden_paths.find? (fun forbidden => pathUnder path forbidden) with
  | some forbidden =>
      (false, some ("Access denied: path is in forbidden list (" ++
        String.intercalate "/" forbidden ++ ")"))
  | none =>
      if sb.allowed_paths.isEmpty then
        (true, none)
      else if sb.allowed_paths.any (fun allowed => pathUnder path allowed) then
        (true, none)
      else
        (false, some ("Access denied: path not in allowed list (" ++
          String.intercalate ", " (sb.allowed_paths.map (String.intercalate "/")) ++ ")"))

/-! ### Command-name extraction (`CommandSandbox._extract_command_name`)

Command strings are lists of characters; the Python string operations
used by the source (`strip`, `in`, `split(sep)[0]`, `split()`,
`split("/")[-1]`) are translated one by one. -/

/-- Python `str.strip()` on the left: drop leading whitespace. -/
def ltrim (s : List Char) : List Char :=
  s.dropWhile Char.isWhitespace

/-- Python `str.strip()`: drop whitespace from both ends. -/
def pyStrip (s : List Char) : List Char :=
  ((s.dropWhile Char.isWhitespace).reverse.dropWhile Char.isWhitespace).reverse

/-- Python `sub in s`: some position of `s` where `sub` matches. -/
def containsSub (sub : List Char) : List Char → Bool
  | [] => sub.isEmpty
  | c :: rest => sub.isPrefixOf (c :: rest) || containsSub sub rest

/-- Python `s.split(sep)[0]` for a non-empty `sep`: the segment of `s`
before the first occurrence of `sep` (all of `s` when `sep` does not
occur). -/
def beforeFirst (sep : List Char) : List Char → List Char
  | [] => []
  | c :: rest =>
      if sep.isPrefixOf (c :: rest) then [] else c :: beforeFirst sep rest

/-- One iteration of the separator loop of `_extract_command_name`:
`if separator in command: command = command.split(separator)[0].strip()`. -/
def cutAtSep (s : List Char) (sep : List Char) : List Char :=
  if containsSub sep s then pyStrip (beforeFirst sep s) else s

/-- The separators of the loop in `_extract_command_name`, in source
order. -/
def shellSeparators : List (List Char) :=
  [['|'], ['>'], ['<'], ['&'], [';', ';']]

/-- Python `str.split()` (no argument): maximal runs of non-whitespace
characters.  `acc` holds the current word reversed. -/
def pyWordsAux : List Char → List Char → List (List Char)
  | acc, [] => if acc.isEmpty then [] else [acc.reverse]
  | acc, c :: rest =>
      if c.isWhitespace then
        if acc.isEmpty then pyWordsAux [] rest
        else acc.reverse :: pyWordsAux [] rest
      else pyWordsAux (c :: acc) rest

/-- Python `str.split()` with no argument. -/
def pyWords (s : List Char) : List (List Char) :=
  pyWordsAux [] s

/-- Python `s.split("/")[-1]`: the suffix after the last slash. -/
def afterLastSlash (s : List Char) : List Char :=
  (s.reverse.takeWhile (fun c => c ≠ '/')).reverse

/-- `CommandSandbox._extract_command_name`: strip the command string, cut
it at each shell separator in turn, take the first whitespace-delimited
word, and strip any directory part from it. -/
def extract_command_name (command : List Char) : List Char :=
  let c := pyStrip command
  let c := shellSeparators.foldl cutAtSep c
  match pyWords c with
  | [] => []
  | name :: _ => if containsSub ['/'] name then afterLastSlash name else name

/-- The default dangerous commands that `_build_command_sets` injects when
the configured forbidden list is empty. -/
def default_forbidden_commands : List (List Char) :=
  ["rm".data, "rmdir".data, "del".data, "delete".data,
   "format".data, "mkfs".data, "fdisk".data,
   "dd".data, "shutdown".data, "reboot".data, "halt".data, "poweroff".data,
   "kill".data, "killall".data,
   "su".data, "sudo".data, "passwd".data,
   "chmod".data, "chown".data,
   "iptables".data, "ufw".data]

/-- `CommandSandbox` after `_build_command_sets`.  Python sets of strings
are modelled as lists queried by membership. -/
structure CommandSandbox where
  allowed_commands : List (List Char)
  forbidden_commands : List (List Char)

/-- `CommandSandbox._build_command_sets`: copy both command lists from the
configuration, and when the configured forbidden list is empty add the
default dangerous commands to it. -/
def build_command_sets (cfg : SandboxConfig) : CommandSandbox :=
  { allowed_commands := cfg.allowed_commands
    forbidden_commands :=
      if cfg.forbidden_commands.isEmpty then default_forbidden_commands
      else cfg.forbidden_commands }

/-- `CommandSandbox.is_allowed` (also exposed as `is_command_allowed`):
extract the command name, deny it when forbidden, otherwise require
membership in the allowed set whenever that set is non-empty. -/
def CommandSandbox.is_allowed (sb : CommandSandbox) (command : List Char) :
    Bool × Option String :=
  let cmd_name := extract_command_name command
  if cmd_name ∈ sb.forbidden_commands then
    (false, some ("Command forbidden for security reasons: " ++ cmd_name.asString))
  else if ¬ sb.allowed_commands.isEmpty ∧ cmd_name ∉ sb.allowed_commands then
    (false, some ("Command not in allowed list: " ++ cmd_name.asString))
  else
    (true, none)

/-! ## Retry/backoff wrapper (src/tongy_agent/retry.py, schema.py)

Python floats are modelled as rationals; every delay value the claims
mention (`1.0 * 2.0 ** n` capped at `10.0`) is a small power of two, on
which binary floating point and exact rational arithmetic agree.  The
wrapped asynchronous operation is modelled as a function from the attempt
index to its outcome, and the `asyncio.sleep` calls are recorded in a
trace instead of taking real time. -/

/-- `RetryConfig` (schema.py). -/
structure RetryConfig where
  enabled : Bool
  max_retries : Nat
  initial_delay : ℚ
  max_delay : ℚ
  exponential_base : ℚ

/-- `RetryConfig.get_delay`: `min(initial_delay * exponential_base ** attempt,
max_delay)`. -/
def RetryConfig.get_delay (cfg : RetryConfig) (attempt : Nat) : ℚ :=
  min (cfg.initial_delay * cfg.exponential_base ^ attempt) cfg.max_delay

/-- Outcome of a call wrapped by `async_retry`: a normal return value, an
exception propagated unchanged (the `enabled=false` path), or a
`RetryError` with its message, attempt count and last underlying
exception. -/
inductive RetryOutcome (E A : Type) where
  | ok (a : A)
  | raised (e : E)
  | retryError (msg : String) (attempts : Nat) (last : Option E)
deriving DecidableEq

/-- Observable behaviour of one wrapped call: its outcome, the trace of
sleep durations, and how many times the underlying operation was
invoked. -/
structure RetryRun (E A : Type) where
  outcome : RetryOutcome E A
  sleeps : List ℚ
  calls : Nat
deriving DecidableEq

/-- The `for attempt in range(config.max_retries)` loop of the wrapper in
`async_retry`.  `remaining` counts the loop iterations left
(`max_retries - attempt`), and `lastE` is the `last_exception` variable;
when the loop ends without returning, the tail `raise
RetryError("Unexpected retry failure", ...)` fires (reachable only when
`max_retries = 0`). -/
def retryLoop {E A : Type} (cfg : RetryConfig) (op : Nat → Except E A) :
    Nat → Nat → Option E → RetryRun E A
  | 0, _, lastE =>
      ⟨.retryError "Unexpected retry failure" cfg.max_retries lastE, [], 0⟩
  | remaining + 1, attempt, _ =>
      match op attempt with
      | .ok a => ⟨.ok a, [], 1⟩
      | .error e =>
          if attempt = cfg.max_retries - 1 then
            ⟨.retryError ("Failed after " ++ toString cfg.max_retries ++ " attempts")
              cfg.max_retries (some e), [], 1⟩
          else
            let rest := retryLoop cfg op remaining (attempt + 1) (some e)
            ⟨rest.outcome, cfg.get_delay attempt :: rest.sleeps, rest.calls + 1⟩

/-- `async_retry(config)` applied to an operation: when retry is disabled
the operation runs exactly once and its outcome is propagated unchanged;
otherwise the retry loop runs starting at attempt 0. -/
def async_retry {E A : Type} (cfg : RetryConfig) (op : Nat → Except E A) :
    RetryRun E A :=
  if cfg.enabled then
    retryLoop cfg op cfg.max_retries 0 none
  else
    match op 0 with
    | .ok a => ⟨.ok a, [], 1⟩
    | .error e => ⟨.raised e, [], 1⟩

/-! ## Conversation data model (schema.py) and agent loop (agent.py)

Tool-call arguments are an opaque payload (the dispatcher only passes
them through), so they are modelled as a single string.  A message whose
`tool_calls` field is Python `None` and one whose field is an empty list
are indistinguishable to the code (both are falsy), so `tool_calls` is a
plain list.  Multimodal (list-valued) message content never arises in the
code paths the claims are about and is not modelled; `content` is a
string. -/

/-- `FunctionCall` (schema.py): the callee name and its argument payload. -/
structure FunctionCall where
  name : String
  arguments : String
deriving DecidableEq

/-- `ToolCall` (schema.py). -/
structure ToolCall where
  id : String
  function : FunctionCall
deriving DecidableEq

/-- Message roles. -/
inductive Role where
  | system
  | user
  | assistant
  | tool
deriving DecidableEq

/-- `Message` (schema.py). -/
structure Message where
  role : Role
  content : String
  tool_calls : List ToolCall := []
  tool_call_id : Option String := none
  name : Option String := none
deriving DecidableEq

instance : Inhabited Message :=
  ⟨{ role := Role.system, content := "" }⟩

/-- `LLMResponse` (schema.py), without the usage statistics (which only
feed logging). -/
structure LLMResponse where
  content : String
  tool_calls : List ToolCall := []
  finish_reason : String := "stop"
deriving DecidableEq

/-- `ToolResult` (schema.py). -/
structure ToolResult where
  success : Bool
  content : String
  error : Option String
deriving DecidableEq

/-- `LLMClientBase.estimate_tokens`: each message contributes
`len(content) // 3` tokens. -/
def estimate_tokens (messages : List Message) : Nat :=
  (messages.map (fun msg => msg.content.length / 3)).sum

/-- The model client: `generate(messages, tools)`.  The second argument
records whether the tool schemas were attached (`True` from `_call_llm`,
`False`/`None` from `_summarize_messages`); an exception from the
transport is an `Except.error`. -/
def Generate : Type :=
  List Message → Bool → Except String LLMResponse

/-! ### Tool-call / tool-result pairing

The invariant of spec §3: every `tool`-role message must cite, by
`tool_call_id`, a tool call carried by the message immediately before
it, and that message must be an assistant message. -/

/-- Scan of the pairing invariant.  `ctx` is the set of tool calls issued
by the assistant message the scan is currently inside of (`none` when
the latest non-tool message was not an assistant message): a tool-role
message must cite, by `tool_call_id`, one of the calls of that assistant
message; any non-tool message resets the context. -/
def pairing_from (ctx : Option (List ToolCall)) : List Message → Bool
  | [] => true
  | m :: rest =>
      if m.role = Role.tool then
        match m.tool_call_id, ctx with
        | some i, some calls =>
            calls.any (fun tc => tc.id == i) && pairing_from ctx rest
        | _, _ => false
      else
        pairing_from
          (if m.role = Role.assistant then some m.tool_calls else none) rest

/-- The pairing invariant of spec §3 for a whole message list: every
tool-result message references a tool call of the assistant message
preceding it (the latest earlier non-tool message, which must be an
assistant one). -/
def pairing_invariant (messages : List Message) : Bool :=
  pairing_from none messages

/-! ### Summarization (`Agent._summarize_messages`, `_maybe_summarize_messages`) -/

/-- The fixed header of the summarization request built by
`_summarize_messages`. -/
def summary_prompt_header : String :=
  "Summarize the following conversation history into a concise summary\nthat captures the key information, tasks, and outcomes. Focus on what was accomplished\nand what is still pending.\n\nConversation history:\n"

/-- The summarization request: the header followed by the truncated
(first 200 characters) content of every user message and every assistant
message with non-empty content among the collapsed messages. -/
def build_summary_prompt (old_messages : List Message) : String :=
  old_messages.foldl
    (fun acc msg =>
      if msg.role = Role.user then
        acc ++ "\nUser: " ++ msg.content.take 200 ++ "..."
      else if msg.role = Role.assistant ∧ msg.content ≠ "" then
        acc ++ "\nAssistant: " ++ msg.content.take 200 ++ "..."
      else acc)
    summary_prompt_header

/-- `Agent._summarize_messages` as a pure function of the message list and
the model client: a no-op (returning `none`) on lists of at most three
messages; otherwise the first message is kept, `messages[1:-2]` are
collapsed into one synthetic system message holding the summary returned
by the model, the last two messages are kept, and the number of collapsed
messages is returned.  When the summarization call fails the list is
returned unchanged with `none`. -/
def summarize_messages (generate : Generate) (messages : List Message) :
    List Message × Option Nat :=
  if messages.length ≤ 3 then (messages, none)
  else
    let system_msg := messages.headD default
    let old_messages := (messages.drop 1).take (messages.length - 3)
    let recent_messages := messages.drop (messages.length - 2)
    let prompt := build_summary_prompt old_messages
    match generate [{ role := Role.user, content := prompt }] false with
    | .error _ => (messages, none)
    | .ok response =>
        (system_msg ::
          { role := Role.system,
            content := "## Previous Conversation Summary\n\n" ++ response.content } ::
          recent_messages,
         some old_messages.length)

/-- The per-conversation state the loop mutates: the message history, the
`_skip_next_token_check` flag and, as instrumentation for the theorems,
the number of model calls made from the loop and the number of
tool-execution rounds performed. -/
structure AgentState where
  messages : List Message
  skip_next_token_check : Bool := false
  llm_calls : Nat := 0
  tool_rounds : Nat := 0
deriving DecidableEq

/-- `Agent._maybe_summarize_messages`: consume the skip flag if set;
otherwise, when the estimated tokens exceed the limit, summarize, and on
a successful summarization set the skip flag. -/
def maybe_summarize (generate : Generate) (token_limit : Nat) (st : AgentState) :
    AgentState :=
  if st.skip_next_token_check then
    { st with skip_next_token_check := false }
  else if estimate_tokens st.messages > token_limit then
    match summarize_messages generate st.messages with
    | (msgs, some _) => { st with messages := msgs, skip_next_token_check := true }
    | (msgs, none) => { st with messages := msgs }
  else st

/-! ### Tool dispatch (`Agent._execute_tools`, `_add_tool_result`) -/

/-- The tool registry `self.tools`: the name-to-tool dictionary built at
construction, as an association list with distinct keys.  A tool's
`execute` either returns a `ToolResult` or raises (`Except.error` with
the exception text). -/
def ToolRegistry : Type :=
  List (String × (String → Except String ToolResult))

/-- The body of the `_execute_tools` loop for one tool call: an unknown
name yields a failed result without raising, and an exception escaping
`execute` is caught at this boundary and converted into a failed result
carrying the exception text. -/
def dispatch_tool_call (tools : ToolRegistry) (tc : ToolCall) : ToolResult :=
  match tools.lookup tc.function.name with
  | none => ⟨false, "", some ("Unknown tool: " ++ tc.function.name)⟩
  | some execute =>
      match execute tc.function.arguments with
      | .ok result => result
      | .error e => ⟨false, "", some e⟩

/-- The tool-role message `Agent._add_tool_result` builds for one call: it
echoes the call id and tool name; a failed result is reported as
`"Error: <error>"` (Python renders a missing error text as `None`). -/
def tool_result_msg (tc : ToolCall) (result : ToolResult) : Message :=
  { role := Role.tool,
    content :=
      if result.success then result.content
      else "Error: " ++ (match result.error with
        | some e => e
        | none => "None"),
    tool_call_id := some tc.id,
    name := some tc.function.name }

/-- `Agent._add_tool_result`: append the tool-result message to the
history. -/
def add_tool_result (tc : ToolCall) (result : ToolResult)
    (messages : List Message) : List Message :=
  messages ++ [tool_result_msg tc result]

/-- `Agent._execute_tools`: dispatch every requested call in order,
appending one tool-result message per call. -/
def execute_tools (tools : ToolRegistry) (tool_calls : List ToolCall)
    (messages : List Message) : List Message :=
  tool_calls.foldl
    (fun msgs tc => add_tool_result tc (dispatch_tool_call tools tc) msgs)
    messages

/-! ### The orchestration loop (`Agent.run`) -/

/-- The configuration fields of `Agent` that `run` reads. -/
structure AgentLoopConfig where
  max_steps : Nat
  token_limit : Nat
  interactive : Bool

/-- The body of `Agent.run`'s `while step < self.max_steps` loop, with
`fuel = max_steps - step` iterations left.  Each iteration: run the token
check (possibly summarizing), call the model (appending the assistant
message on success, or returning the error outcome on failure), return
the final content when no tool calls were requested, otherwise execute
the tools and, in interactive mode, consult the confirmation gate
(`confirm step`), cancelling on a negative answer.  When the fuel runs
out the step-limit outcome is returned. -/
def run_loop (generate : Generate) (tools : ToolRegistry)
    (cfg : AgentLoopConfig) (confirm : Nat → Bool) :
    Nat → Nat → AgentState → String × AgentState
  | 0, _, st => ("Task not completed after " ++ toString cfg.max_steps ++ " steps", st)
  | fuel + 1, step, st =>
      let st1 := maybe_summarize generate cfg.token_limit st
      match generate st1.messages true with
      | .error e =>
          ("Error: LLM call failed - " ++ e, { st1 with llm_calls := st1.llm_calls + 1 })
      | .ok response =>
          let st2 : AgentState :=
            { st1 with
              messages := st1.messages ++
                [{ role := Role.assistant, content := response.content,
                   tool_calls := response.tool_calls }],
              llm_calls := st1.llm_calls + 1 }
          if response.tool_calls = [] then
            (response.content, st2)
          else
            let st3 : AgentState :=
              { st2 with
                messages := execute_tools tools response.tool_calls st2.messages,
                tool_rounds := st2.tool_rounds + 1 }
            if cfg.interactive then
              if confirm step then
                run_loop generate tools cfg confirm fuel (step + 1) st3
              else
                ("Operation cancelled by user.", st3)
            else
              run_loop generate tools cfg confirm fuel (step + 1) st3

/-- `Agent.run`: the loop started at step 0. -/
def run (generate : Generate) (tools : ToolRegistry) (cfg : AgentLoopConfig)
    (confirm : Nat → Bool) (st : AgentState) : String × AgentState :=
  run_loop generate tools cfg confirm cfg.max_steps 0 st

/-! ## File-edit tool (src/tongy_agent/tools/file_tools.py)

`EditFileTool.execute` is modelled with no sandbox configured (the
claims are about the replacement semantics; with `sandbox=None` the
source skips both sandbox checks).  The target file is the only
filesystem state involved: `none` when it does not exist, otherwise its
content as a character list.  The Python primitives
`str.replace(old, new, 1)`, `str.replace(old, new)` and `str.count(old)`
are translated below, including the empty-`old` conventions (an empty
pattern matches before every character and at the end). -/

/-- Python `s.replace(old, new, 1)` for `old = o :: ot`: rewrite the first
(leftmost) occurrence and keep the remainder unchanged. -/
def replaceFirstCore (o : Char) (ot new : List Char) : List Char → List Char
  | [] => []
  | c :: rest =>
      if (o :: ot).isPrefixOf (c :: rest) then new ++ rest.drop ot.length
      else c :: replaceFirstCore o ot new rest

/-- Python `s.replace(old, new, 1)`; replacing an empty pattern inserts
`new` once, in front. -/
def pyReplaceOne (old new s : List Char) : List Char :=
  match old with
  | [] => new ++ s
  | o :: ot => replaceFirstCore o ot new s

/-- Python `s.replace(old, new)` for `old = o :: ot`: rewrite every
occurrence, scanning left to right without overlap.  The first argument
is recursion fuel: one unit per character scanned is always enough (a
match consumes at least one character), and `replaceAllCore` below
supplies the length of the string, so the fuel-out branch is never
reached. -/
def replaceAllGo (o : Char) (ot new : List Char) : Nat → List Char → List Char
  | _, [] => []
  | 0, s => s
  | fuel + 1, c :: rest =>
      if (o :: ot).isPrefixOf (c :: rest) then
        new ++ replaceAllGo o ot new fuel (rest.drop ot.length)
      else c :: replaceAllGo o ot new fuel rest

/-- Python `s.replace(old, new)` for a non-empty pattern `o :: ot`. -/
def replaceAllCore (o : Char) (ot new : List Char) (s : List Char) : List Char :=
  replaceAllGo o ot new s.length s

/-- Python `s.replace(old, new)` with an empty pattern: `new` inserted
before every character and at the end. -/
def replaceEmptyAll (new : List Char) : List Char → List Char
  | [] => new
  | c :: rest => new ++ c :: replaceEmptyAll new rest

/-- Python `s.replace(old, new)`. -/
def pyReplaceAll (old new s : List Char) : List Char :=
  match old with
  | [] => replaceEmptyAll new s
  | o :: ot => replaceAllCore o ot new s

/-- Python `s.count(old)` for `old = o :: ot`: the number of
non-overlapping occurrences, scanning left to right.  Fuel as in
`replaceAllGo`. -/
def countGo (o : Char) (ot : List Char) : Nat → List Char → Nat
  | _, [] => 0
  | 0, _ => 0
  | fuel + 1, c :: rest =>
      if (o :: ot).isPrefixOf (c :: rest) then
        countGo o ot fuel (rest.drop ot.length) + 1
      else countGo o ot fuel rest

/-- Python `s.count(old)` for a non-empty pattern `o :: ot`. -/
def countCore (o : Char) (ot : List Char) (s : List Char) : Nat :=
  countGo o ot s.length s

/-- Python `s.count(old)`; an empty pattern is counted once per position,
ends included. -/
def pyCount (old s : List Char) : Nat :=
  match old with
  | [] => s.length + 1
  | o :: ot => countCore o ot s

/-- `EditFileTool.execute` with no sandbox, as a function of the target
file's current content.  `diff` abstracts `_generate_unified_diff`
(pure display text produced by `difflib`).  Returns the `ToolResult`,
the occurrence count reported in the success message (`none` on
failure), and the file content after the call. -/
def edit_file_execute (diff : List Char → List Char → String) (path : String)
    (file : Option (List Char)) (old_string new_string : List Char)
    (replace_all : Bool) : ToolResult × Option Nat × Option (List Char) :=
  match file with
  | none => (⟨false, "", some ("File not found: " ++ path)⟩, none, none)
  | some content =>
      if ¬ containsSub old_string content then
        (⟨false, "",
          some ("Old string not found in file: " ++ (old_string.take 50).asString ++ "...")⟩,
         none, some content)
      else
        let new_content :=
          if replace_all then pyReplaceAll old_string new_string content
          else pyReplaceOne old_string new_string content
        let count := if replace_all then pyCount old_string content else 1
        let diff_output := diff content new_content
        let base_msg := "Replaced " ++ toString count ++ " occurrence(s) in " ++ path
        let result_msg :=
          if diff_output ≠ "" then base_msg ++ "\n\n---\n" ++ diff_output else base_msg
        (⟨true, result_msg, none⟩, some count, some new_content)

/-! ## Todo tool (src/tongy_agent/tools/todo_tool.py)

A todo entry carries an id, the task text, a status string and its
active form; the wall-clock timestamps (`created_at`, `updated_at`) do
not influence any behaviour the claims mention and are omitted.  The
persisted `.tongy_todos.json` file is modelled by its `todos` array
(`none` when the file does not exist).  Fresh ids (`uuid4`) are drawn
from an explicit supply indexed by the position in the submission.

One Python subtlety is modelled explicitly: when a submitted entry's id
matches an existing todo, the source mutates the existing dictionary in
place and appends that same dictionary to `updated_todos`, so when
several submitted entries share an existing id they all alias one
dictionary, and by the time the in-progress count and the saved file are
computed every such slot shows the fields of the *last* update for that
id. -/

/-- A stored todo entry. -/
structure TodoItem where
  id : String
  content : String
  status : String
  activeForm : String
deriving DecidableEq

/-- A submitted todo entry: the id is optional (`uuid4` fills it in). -/
structure SubmittedTodo where
  id : Option String
  content : String
  status : String
  activeForm : String
deriving DecidableEq

/-- In-memory and on-disk state of `TodoWriteTool`. -/
structure TodoState where
  todos : List TodoItem
  file : Option (List TodoItem)
deriving DecidableEq

/-- Give every submitted entry its id, walking the submission with its
position index: the id the entry carries, or a fresh one from the supply
at its position. -/
def assign_ids_from (fresh : Nat → String) : Nat → List SubmittedTodo → List TodoItem
  | _, [] => []
  | i, s :: rest =>
      { id := s.id.getD (fresh i),
        content := s.content,
        status := s.status,
        activeForm := s.activeForm } :: assign_ids_from fresh (i + 1) rest

/-- Give every submitted entry its id: the one it carries, or a fresh one
from the supply at its position. -/
def assign_ids (fresh : Nat → String) (submitted : List SubmittedTodo) :
    List TodoItem :=
  assign_ids_from fresh 0 submitted

/-- The final update a given id receives across the whole submission
(later entries overwrite earlier ones on the shared dictionary). -/
def last_update (subs : List TodoItem) (i : String) : Option TodoItem :=
  (subs.filter (fun t => t.id == i)).getLast?

/-- The `updated_todos` list at the end of the merge loop: one slot per
submitted entry; a slot whose id matches an existing todo shows the last
update for that id (aliasing), any other slot is the new entry itself. -/
def updated_todos (old subs : List TodoItem) : List TodoItem :=
  subs.map (fun t =>
    if old.any (fun o => o.id == t.id) then (last_update subs t.id).getD t else t)

/-- `sum(1 for t in updated_todos if t.get("status") == "in_progress")`. -/
def count_in_progress (l : List TodoItem) : Nat :=
  (l.filter (fun t => t.status == "in_progress")).length

/-- The status marker used in the summary text. -/
def status_emoji (status : String) : String :=
  if status == "pending" then "⏳"
  else if status == "in_progress" then "🔄"
  else if status == "completed" then "✅"
  else "❓"

/-- The success summary: a heading followed by one marker-plus-content
line per todo. -/
def todo_summary (todos : List TodoItem) : String :=
  String.intercalate "\n"
    ("## TODO List\n" :: todos.map (fun t => status_emoji t.status ++ " " ++ t.content))

/-- `TodoWriteTool.execute`: merge the submission into the current todos,
reject the result when more than one entry ends up `in_progress`
(without touching the file; the in-place mutation of matched existing
entries has already happened), otherwise adopt the merged list and
rewrite the file. -/
def todo_write_execute (fresh : Nat → String) (st : TodoState)
    (submitted : List SubmittedTodo) : ToolResult × TodoState :=
  let subs := assign_ids fresh submitted
  let updated := updated_todos st.todos subs
  if count_in_progress updated > 1 then
    (⟨false, "", some "Only one todo can be in_progress at a time"⟩,
     { todos :=
         st.todos.map (fun o =>
           match last_update subs o.id with
           | some u =>
               { o with content := u.content, status := u.status,
                        activeForm := u.activeForm }
           | none => o),
       file := st.file })
  else
    (⟨true, todo_summary updated, none⟩,
     { todos := updated, file := some updated })

/-! ## Theorems -/

/-- C2: for every path under both some forbidden root and some allowed
root of the policy, `FileSandbox.is_allowed` denies — forbidden rules
take precedence over allowed rules, whatever the order of the configured
path lists. -/
theorem forbidden_paths_take_precedence (sb : FileSandbox)
    (path f a : List String)
    (hf : f ∈ sb.forbidden_paths) (hpf : pathUnder path f = true)
    (ha : a ∈ sb.allowed_paths) (hpa : pathUnder path a = true) :
    (sb.is_allowed path).1 = false := by
  rcases hfind : sb.forbidden_paths.find? (fun forbidden => pathUnder path forbidden)
    with _ | f0
  · exact absurd (List.find?_eq_none.mp hfind f hf) (by simp [hpf])
  · simp [FileSandbox.is_allowed, hfind]

/-- Witness for C2 at a concrete policy: `/home/secret/f` sits under the
allowed root `/home` and the forbidden root `/home/secret`, and is
denied. -/
theorem forbidden_paths_take_precedence_witness :
    ((FileSandbox.mk [["home"]] [["home", "secret"]]).is_allowed
      ["home", "secret", "f"]).1 = false :=
  forbidden_paths_take_precedence (FileSandbox.mk [["home"]] [["home", "secret"]])
    ["home", "secret", "f"] ["home", "secret"] ["home"]
    (by decide) (by decide) (by decide) (by decide)

/-- C10: when the configured forbidden-command list is empty,
`_build_command_sets` silently injects the default dangerous-command
set, so every command whose extracted name is one of those 21 commands
is denied even though the configuration forbids nothing; any non-empty
configured forbidden list disables the default entirely. -/
theorem default_forbidden_commands_injection :
    (∀ cfg : SandboxConfig, cfg.forbidden_commands = [] →
      ∀ command : List Char,
        extract_command_name command ∈ default_forbidden_commands →
        ((build_command_sets cfg).is_allowed command).1 = false)
    ∧ (∀ cfg : SandboxConfig, cfg.forbidden_commands ≠ [] →
        (build_command_sets cfg).forbidden_commands = cfg.forbidden_commands) := by
  constructor
  · intro cfg hcfg command hmem
    have hforb : (build_command_sets cfg).forbidden_commands =
        default_forbidden_commands := by
      simp [build_command_sets, hcfg]
    simp only [CommandSandbox.is_allowed, hforb, if_pos hmem]
  · intro cfg hcfg
    simp [build_command_sets, List.isEmpty_iff, hcfg]

/-- Witness for C10: with nothing forbidden by configuration,
`rm -rf /tmp` is denied, and configuring `["curl"]` keeps exactly
`["curl"]` forbidden. -/
theorem default_forbidden_commands_injection_witness :
    ((build_command_sets (SandboxConfig.mk [] [] 10485760 [] [])).is_allowed
        "rm -rf /tmp".data).1 = false
    ∧ (build_command_sets (SandboxConfig.mk [] [] 10485760 [] ["curl".data])).forbidden_commands
        = ["curl".data] :=
  ⟨default_forbidden_commands_injection.1 (SandboxConfig.mk [] [] 10485760 [] [])
      rfl "rm -rf /tmp".data (by decide),
   default_forbidden_commands_injection.2 (SandboxConfig.mk [] [] 10485760 [] ["curl".data])
      (by decide)⟩

/-- C7: `CommandSandbox.is_allowed` decides purely from the extracted
leading command token: it denies whenever the token is forbidden
(whatever the arguments), with a non-empty allow-set it allows exactly
the members, and otherwise it allows; on the spec's examples the token
of `rm -rf /` is `rm` (denied when `rm` is forbidden) and `ls -la` is
allowed with no allow-list when `ls` is not forbidden. -/
theorem command_filter_spec :
    (∀ (sb : CommandSandbox) (command : List Char),
        (extract_command_name command ∈ sb.forbidden_commands →
          (sb.is_allowed command).1 = false)
      ∧ (extract_command_name command ∉ sb.forbidden_commands →
          sb.allowed_commands ≠ [] →
          ((sb.is_allowed command).1 = true ↔
            extract_command_name command ∈ sb.allowed_commands))
      ∧ (extract_command_name command ∉ sb.forbidden_commands →
          sb.allowed_commands = [] →
          (sb.is_allowed command).1 = true))
    ∧ extract_command_name "rm -rf /".data = "rm".data
    ∧ extract_command_name "ls -la".data = "ls".data
    ∧ (∀ sb : CommandSandbox, "rm".data ∈ sb.forbidden_commands →
        (sb.is_allowed "rm -rf /".data).1 = false)
    ∧ (∀ sb : CommandSandbox, sb.allowed_commands = [] →
        "ls".data ∉ sb.forbidden_commands →
        (sb.is_allowed "ls -la".data).1 = true) := by
  have hmain : ∀ (sb : CommandSandbox) (command : List Char),
      (extract_command_name command ∈ sb.forbidden_commands →
        (sb.is_allowed command).1 = false)
    ∧ (extract_command_name command ∉ sb.forbidden_commands →
        sb.allowed_commands ≠ [] →
        ((sb.is_allowed command).1 = true ↔
          extract_command_name command ∈ sb.allowed_commands))
    ∧ (extract_command_name command ∉ sb.forbidden_commands →
        sb.allowed_commands = [] →
        (sb.is_allowed command).1 = true) := by
    intro sb command
    refine ⟨fun hforb => ?_, fun hforb hne => ?_, fun hforb hempty => ?_⟩
    · simp only [CommandSandbox.is_allowed, if_pos hforb]
    · by_cases hall : extract_command_name command ∈ sb.allowed_commands
      · simp only [CommandSandbox.is_allowed, if_neg hforb]
        rw [if_neg (by simp [hall])]
        simp [hall]
      · simp only [CommandSandbox.is_allowed, if_neg hforb]
        rw [if_pos ⟨by simpa [List.isEmpty_iff] using hne, hall⟩]
        simp [hall]
    · simp only [CommandSandbox.is_allowed, if_neg hforb]
      rw [if_neg (by simp [hempty, List.isEmpty_iff])]
  refine ⟨hmain, by decide, by decide, fun sb hforb => ?_, fun sb hempty hforb => ?_⟩
  · exact (hmain sb "rm -rf /".data).1 (by
      have h : extract_command_name "rm -rf /".data = "rm".data := by decide
      rw [h]; exact hforb)
  · refine (hmain sb "ls -la".data).2.2 ?_ hempty
    have h : extract_command_name "ls -la".data = "ls".data := by decide
    rw [h]; exact hforb

/-- Witness for C7 at a concrete sandbox (default forbidden set, no
allow-list): `rm -rf /` is denied and `ls -la` is allowed. -/
theorem command_filter_spec_witness :
    ((CommandSandbox.mk [] default_forbidden_commands).is_allowed "rm -rf /".data).1 = false
    ∧ ((CommandSandbox.mk [] default_forbidden_commands).is_allowed "ls -la".data).1 = true :=
  ⟨command_filter_spec.2.2.2.1 (CommandSandbox.mk [] default_forbidden_commands) (by decide),
   command_filter_spec.2.2.2.2 (CommandSandbox.mk [] default_forbidden_commands) rfl (by decide)⟩

/-- C9: the retry delay at attempt `n` is
`min(initial_delay * multiplier^n, max_delay)`; with the configuration
`initial_delay=1, max_delay=10, multiplier=2` the delays at attempts
0, 1, 2, 10 are 1, 2, 4 and 10 (capped at `max_delay`). -/
theorem retry_delay_formula :
    (∀ (cfg : RetryConfig) (attempt : Nat),
        cfg.get_delay attempt =
          min (cfg.initial_delay * cfg.exponential_base ^ attempt) cfg.max_delay)
    ∧ (RetryConfig.mk true 3 1 10 2).get_delay 0 = 1
    ∧ (RetryConfig.mk true 3 1 10 2).get_delay 1 = 2
    ∧ (RetryConfig.mk true 3 1 10 2).get_delay 2 = 4
    ∧ (RetryConfig.mk true 3 1 10 2).get_delay 10 = 10 := by
  refine ⟨fun cfg attempt => rfl, ?_, ?_, ?_, ?_⟩ <;>
    · simp only [RetryConfig.get_delay]
      norm_num

/-- The retry loop invokes the operation at most once per remaining
iteration. -/
theorem retryLoop_calls_le {E A : Type} (cfg : RetryConfig) (op : Nat → Except E A) :
    ∀ (r attempt : Nat) (lastE : Option E),
      (retryLoop cfg op r attempt lastE).calls ≤ r := by
  intro r
  induction r with
  | zero => intro attempt lastE; simp [retryLoop]
  | succ r ih =>
      intro attempt lastE
      rcases hop : op attempt with e | a
      · by_cases hlast : attempt = cfg.max_retries - 1
        · simp [retryLoop, hop, if_pos hlast]
        · simpa [retryLoop, hop, hlast] using ih (attempt + 1) (some e)
      · simp [retryLoop, hop]

/-- When every attempt from `attempt` on fails, the retry loop walks all
its remaining iterations, sleeping the configured backoff after each
non-final one, and ends in the retries-exhausted error carrying the
total attempt count and the final failure. -/
theorem retryLoop_all_fail {E A : Type} (cfg : RetryConfig) (op : Nat → Except E A)
    (f : Nat → E) :
    ∀ (r attempt : Nat) (lastE : Option E),
      attempt + r = cfg.max_retries → 1 ≤ r →
      (∀ k, attempt ≤ k → k < cfg.max_retries → op k = .error (f k)) →
      retryLoop cfg op r attempt lastE =
        ⟨.retryError ("Failed after " ++ toString cfg.max_retries ++ " attempts")
            cfg.max_retries (some (f (cfg.max_retries - 1))),
          (List.range' attempt (r - 1)).map cfg.get_delay, r⟩ := by
  intro r
  induction r with
  | zero => intro attempt lastE _ h1; omega
  | succ r ih =>
      intro attempt lastE hsum _ hfail
      have hattempt : attempt < cfg.max_retries := by omega
      have hop : op attempt = .error (f attempt) := hfail attempt le_rfl hattempt
      rcases Nat.eq_zero_or_pos r with hr0 | hrpos
      · subst hr0
        have hlast : attempt = cfg.max_retries - 1 := by omega
        subst hlast
        simp [retryLoop, hop]
      · have hlast : attempt ≠ cfg.max_retries - 1 := by omega
        have hrec := ih (attempt + 1) (some (f attempt)) (by omega) hrpos
          (fun k hk hk2 => hfail k (by omega) hk2)
        have hrange : List.range' attempt r =
            attempt :: List.range' (attempt + 1) (r - 1) := by
          conv_lhs => rw [show r = (r - 1) + 1 from by omega]
          rw [List.range'_succ]
        simp [retryLoop, hop, hlast, hrec, hrange]

/-- When the first `k - attempt` attempts fail and attempt `k` succeeds,
the retry loop sleeps the configured backoff after each failure and
returns the success, having invoked the operation once per attempt up to
and including `k`. -/
theorem retryLoop_succeeds {E A : Type} (cfg : RetryConfig) (op : Nat → Except E A)
    (f : Nat → E) (k : Nat) (a : A) :
    ∀ (r attempt : Nat) (lastE : Option E),
      attempt + r = cfg.max_retries → attempt ≤ k → k < cfg.max_retries →
      (∀ j, attempt ≤ j → j < k → op j = .error (f j)) →
      op k = .ok a →
      retryLoop cfg op r attempt lastE =
        ⟨.ok a, (List.range' attempt (k - attempt)).map cfg.get_delay,
          k - attempt + 1⟩ := by
  intro r
  induction r with
  | zero => intro attempt lastE hsum hk1 hk2 _ _; omega
  | succ r ih =>
      intro attempt lastE hsum hk1 hk2 hfail hok
      by_cases hek : attempt = k
      · subst hek
        simp [retryLoop, hok]
      · have hlt : attempt < k := by omega
        have hop : op attempt = .error (f attempt) := hfail attempt le_rfl hlt
        have hlast : attempt ≠ cfg.max_retries - 1 := by omega
        have hrec := ih (attempt + 1) (some (f attempt)) (by omega) (by omega) hk2
          (fun j hj hj2 => hfail j (by omega) hj2) hok
        have hrange : List.range' attempt (k - attempt) =
            attempt :: List.range' (attempt + 1) (k - (attempt + 1)) := by
          have : k - attempt = (k - (attempt + 1)) + 1 := by omega
          rw [this, List.range'_succ]
        have hcalls : k - (attempt + 1) + 1 + 1 = k - attempt + 1 := by omega
        simp [retryLoop, hop, hlast, hrec, hrange, hcalls]

/-- C8: with retry enabled the wrapped operation is attempted at most
`max_retries` times; when the first `k` attempts fail and attempt `k`
succeeds the wrapper sleeps `get_delay(0..k-1)` between attempts and
returns the value after `k + 1` invocations; when every attempt fails it
sleeps after each non-final attempt and raises the retries-exhausted
error carrying the attempt count and the last underlying exception.
With retry disabled the operation runs exactly once, with no sleep, and
its value or exception is propagated unchanged. -/
theorem async_retry_spec {E A : Type} (cfg : RetryConfig) (op : Nat → Except E A) :
    (cfg.enabled = true → (async_retry cfg op).calls ≤ cfg.max_retries)
    ∧ (cfg.enabled = true → ∀ (f : Nat → E) (k : Nat) (a : A),
        k < cfg.max_retries → (∀ j, j < k → op j = .error (f j)) → op k = .ok a →
        async_retry cfg op =
          ⟨.ok a, (List.range k).map cfg.get_delay, k + 1⟩)
    ∧ (cfg.enabled = true → 1 ≤ cfg.max_retries → ∀ f : Nat → E,
        (∀ j, j < cfg.max_retries → op j = .error (f j)) →
        async_retry cfg op =
          ⟨.retryError ("Failed after " ++ toString cfg.max_retries ++ " attempts")
              cfg.max_retries (some (f (cfg.max_retries - 1))),
            (List.range (cfg.max_retries - 1)).map cfg.get_delay, cfg.max_retries⟩)
    ∧ (cfg.enabled = false →
        (∀ a, op 0 = .ok a → async_retry cfg op = ⟨.ok a, [], 1⟩)
        ∧ (∀ e, op 0 = .error e → async_retry cfg op = ⟨.raised e, [], 1⟩)) := by
  refine ⟨fun hen => ?_, fun hen f k a hk hfail hok => ?_, fun hen hpos f hfail => ?_,
    fun hen => ⟨fun a hok => ?_, fun e herr => ?_⟩⟩
  · rw [async_retry, if_pos hen]
    exact retryLoop_calls_le cfg op cfg.max_retries 0 none
  · rw [async_retry, if_pos hen,
      retryLoop_succeeds cfg op f k a cfg.max_retries 0 none (by omega) (by omega) hk
        (fun j _ hj => hfail j hj) hok]
    simp [List.range_eq_range']
  · rw [async_retry, if_pos hen,
      retryLoop_all_fail cfg op f cfg.max_retries 0 none (by omega) hpos
        (fun k _ hk => hfail k hk)]
    simp [List.range_eq_range']
  · rw [async_retry, if_neg (by simp [hen]), hok]
  · rw [async_retry, if_neg (by simp [hen]), herr]

/-- Witness for C8 at concrete operations: with 3 attempts allowed, an
operation failing twice then succeeding is called 3 times with sleeps
1 and 2 seconds; with 2 attempts allowed, an always-failing operation
ends in the retries-exhausted error after one 1-second sleep; with retry
disabled the operation runs once and its value is propagated. -/
theorem async_retry_spec_witness :
    async_retry (RetryConfig.mk true 3 1 10 2)
        (fun j => if j < 2 then Except.error ("e" ++ toString j) else Except.ok 7)
      = ⟨.ok 7, [1, 2], 3⟩
    ∧ async_retry (RetryConfig.mk true 2 1 10 2) (fun j => (Except.error j : Except Nat Nat))
      = ⟨.retryError "Failed after 2 attempts" 2 (some 1), [1], 2⟩
    ∧ async_retry (RetryConfig.mk false 3 1 10 2) (fun _ => (Except.ok 5 : Except String Nat))
      = ⟨.ok 5, [], 1⟩ := by
  refine ⟨?_, ?_, ?_⟩
  · have h := (async_retry_spec (RetryConfig.mk true 3 1 10 2)
        (fun j => if j < 2 then Except.error ("e" ++ toString j) else Except.ok 7)).2.1
      rfl (fun j => "e" ++ toString j) 2 7 (by decide)
      (fun j hj => by interval_cases j <;> rfl) rfl
    rw [h]
    simp only [RetryRun.mk.injEq]
    refine ⟨by decide, ?_, by decide⟩
    simp only [List.range_succ, List.range_zero, List.map_append, List.map_cons,
      List.map_nil, List.nil_append, List.cons_append]
    norm_num [RetryConfig.get_delay]
  · have h := (async_retry_spec (RetryConfig.mk true 2 1 10 2)
        (fun j => (Except.error j : Except Nat Nat))).2.2.1 rfl (by decide)
      (fun j => j) (fun j hj => rfl)
    rw [h]
    simp only [RetryRun.mk.injEq]
    refine ⟨by decide, ?_, by decide⟩
    simp only [show (RetryConfig.mk true 2 1 10 2).max_retries - 1 = 1 from rfl,
      List.range_succ, List.range_zero, List.map_append, List.map_cons, List.map_nil,
      List.nil_append, List.cons_append]
    norm_num [RetryConfig.get_delay]
  · exact ((async_retry_spec (RetryConfig.mk false 3 1 10 2)
        (fun _ => (Except.ok 5 : Except String Nat))).2.2.2 rfl).1 5 rfl

/-- C5: dispatching a call to a name missing from the registry returns a
failed `ToolResult` with error `"Unknown tool: <name>"` instead of
raising; an exception escaping a tool's `execute` is caught at the
dispatch boundary and becomes a failed result carrying its message; and
`_execute_tools` always appends exactly one tool-result message per
requested call, in order, so a single tool failure never aborts the
loop. -/
theorem tool_dispatch_error_handling (tools : ToolRegistry) (tc : ToolCall) :
    (tools.lookup tc.function.name = none →
      dispatch_tool_call tools tc =
        ⟨false, "", some ("Unknown tool: " ++ tc.function.name)⟩)
    ∧ (∀ execute e, tools.lookup tc.function.name = some execute →
        execute tc.function.arguments = .error e →
        dispatch_tool_call tools tc = ⟨false, "", some e⟩)
    ∧ (∀ (tool_calls : List ToolCall) (messages : List Message),
        execute_tools tools tool_calls messages =
          messages ++
            tool_calls.map (fun c => tool_result_msg c (dispatch_tool_call tools c))) := by
  refine ⟨fun hnone => ?_, fun execute e hsome herr => ?_, fun tool_calls => ?_⟩
  · simp [dispatch_tool_call, hnone]
  · simp [dispatch_tool_call, hsome, herr]
  · induction tool_calls with
    | nil => intro messages; simp [execute_tools]
    | cons c rest ih =>
        intro messages
        have hstep : execute_tools tools (c :: rest) messages =
            execute_tools tools rest
              (messages ++ [tool_result_msg c (dispatch_tool_call tools c)]) := rfl
        rw [hstep, ih]
        simp

/-- Witness for C5 at a concrete registry: a call to the unregistered
name `nope` yields the unknown-tool failure, a call to a raising tool
yields a failure carrying the exception text, and running both calls
appends exactly two tool-result messages. -/
theorem tool_dispatch_error_handling_witness :
    dispatch_tool_call [("bad", fun _ => Except.error "boom")] ⟨"1", ⟨"nope", "{}"⟩⟩
      = ⟨false, "", some "Unknown tool: nope"⟩
    ∧ dispatch_tool_call [("bad", fun _ => Except.error "boom")] ⟨"2", ⟨"bad", "{}"⟩⟩
      = ⟨false, "", some "boom"⟩
    ∧ (execute_tools [("bad", fun _ => Except.error "boom")]
        [⟨"1", ⟨"nope", "{}"⟩⟩, ⟨"2", ⟨"bad", "{}"⟩⟩] []).length = 2 := by
  refine ⟨?_, ?_, ?_⟩
  · exact (tool_dispatch_error_handling [("bad", fun _ => Except.error "boom")]
      ⟨"1", ⟨"nope", "{}"⟩⟩).1 rfl
  · exact (tool_dispatch_error_handling [("bad", fun _ => Except.error "boom")]
      ⟨"2", ⟨"bad", "{}"⟩⟩).2.1 (fun _ => Except.error "boom") "boom" rfl rfl
  · rw [(tool_dispatch_error_handling [("bad", fun _ => Except.error "boom")]
      ⟨"1", ⟨"nope", "{}"⟩⟩).2.2
      [⟨"1", ⟨"nope", "{}"⟩⟩, ⟨"2", ⟨"bad", "{}"⟩⟩] []]
    simp

/-- The token check never touches the instrumentation counters. -/
theorem maybe_summarize_counters (generate : Generate) (token_limit : Nat)
    (st : AgentState) :
    (maybe_summarize generate token_limit st).llm_calls = st.llm_calls
    ∧ (maybe_summarize generate token_limit st).tool_rounds = st.tool_rounds := by
  unfold maybe_summarize
  split
  · exact ⟨rfl, rfl⟩
  · split
    · rcases h : summarize_messages generate st.messages with ⟨msgs, n⟩
      cases n <;> simp [h]
    · exact ⟨rfl, rfl⟩

/-- Each loop iteration makes at most one model call and at most one
tool-execution round, so `fuel` iterations add at most `fuel` to either
counter. -/
theorem run_loop_counters (generate : Generate) (tools : ToolRegistry)
    (cfg : AgentLoopConfig) (confirm : Nat → Bool) :
    ∀ (fuel step : Nat) (st : AgentState),
      (run_loop generate tools cfg confirm fuel step st).2.tool_rounds ≤ st.tool_rounds + fuel
      ∧ (run_loop generate tools cfg confirm fuel step st).2.llm_calls ≤ st.llm_calls + fuel := by
  intro fuel
  induction fuel with
  | zero => intro step st; simp [run_loop]
  | succ fuel ih =>
      intro step st
      obtain ⟨hms1, hms2⟩ := maybe_summarize_counters generate cfg.token_limit st
      rcases hgen : generate (maybe_summarize generate cfg.token_limit st).messages true
        with e | resp
      · simp only [run_loop, hgen]
        refine ⟨?_, ?_⟩ <;> (try simp) <;> omega
      · simp only [run_loop, hgen]
        by_cases hcalls : resp.tool_calls = []
        · rw [if_pos hcalls]
          refine ⟨?_, ?_⟩ <;> (try simp) <;> omega
        · rw [if_neg hcalls]
          by_cases hint : cfg.interactive
        -- interactive: either recurse or cancel after this round
          · rw [if_pos hint]
            by_cases hconf : confirm step
            · rw [if_pos hconf]
              obtain ⟨h1, h2⟩ := ih (step + 1)
                { maybe_summarize generate cfg.token_limit st with
                  messages := execute_tools tools resp.tool_calls
                    ((maybe_summarize generate cfg.token_limit st).messages ++
                      [{ role := Role.assistant, content := resp.content,
                         tool_calls := resp.tool_calls }]),
                  llm_calls := (maybe_summarize generate cfg.token_limit st).llm_calls + 1,
                  tool_rounds := (maybe_summarize generate cfg.token_limit st).tool_rounds + 1 }
              constructor
              · refine le_trans h1 ?_
                (try simp) <;> omega
              · refine le_trans h2 ?_
                (try simp) <;> omega
            · rw [if_neg hconf]
              refine ⟨?_, ?_⟩ <;> (try simp) <;> omega
          · rw [if_neg hint]
            obtain ⟨h1, h2⟩ := ih (step + 1)
              { maybe_summarize generate cfg.token_limit st with
                messages := execute_tools tools resp.tool_calls
                  ((maybe_summarize generate cfg.token_limit st).messages ++
                    [{ role := Role.assistant, content := resp.content,
                       tool_calls := resp.tool_calls }]),
                llm_calls := (maybe_summarize generate cfg.token_limit st).llm_calls + 1,
                tool_rounds := (maybe_summarize generate cfg.token_limit st).tool_rounds + 1 }
            constructor
            · refine le_trans h1 ?_
              (try simp) <;> omega
            · refine le_trans h2 ?_
              (try simp) <;> omega

/-- Against a model client that always requests tool calls, a
non-interactive loop runs every remaining iteration, performing exactly
one model call and one tool round per iteration, and ends with the
step-limit outcome. -/
theorem run_loop_always_tools (generate : Generate) (tools : ToolRegistry)
    (cfg : AgentLoopConfig) (confirm : Nat → Bool)
    (halways : ∀ msgs, ∃ r, generate msgs true = .ok r ∧ r.tool_calls ≠ [])
    (hnoninteractive : cfg.interactive = false) :
    ∀ (fuel step : Nat) (st : AgentState),
      (run_loop generate tools cfg confirm fuel step st).1 =
        "Task not completed after " ++ toString cfg.max_steps ++ " steps"
      ∧ (run_loop generate tools cfg confirm fuel step st).2.tool_rounds
          = st.tool_rounds + fuel
      ∧ (run_loop generate tools cfg confirm fuel step st).2.llm_calls
          = st.llm_calls + fuel := by
  intro fuel
  induction fuel with
  | zero => intro step st; simp [run_loop]
  | succ fuel ih =>
      intro step st
      obtain ⟨hms1, hms2⟩ := maybe_summarize_counters generate cfg.token_limit st
      obtain ⟨resp, hgen, hne⟩ :=
        halways (maybe_summarize generate cfg.token_limit st).messages
      simp only [run_loop, hgen, if_neg hne, hnoninteractive, Bool.false_eq_true,
        if_false]
      obtain ⟨h1, h2, h3⟩ := ih (step + 1)
        { maybe_summarize generate cfg.token_limit st with
          messages := execute_tools tools resp.tool_calls
            ((maybe_summarize generate cfg.token_limit st).messages ++
              [{ role := Role.assistant, content := resp.content,
                 tool_calls := resp.tool_calls }]),
          llm_calls := (maybe_summarize generate cfg.token_limit st).llm_calls + 1,
          tool_rounds := (maybe_summarize generate cfg.token_limit st).tool_rounds + 1 }
      refine ⟨h1, ?_, ?_⟩
      · rw [h2]
        simp
        omega
      · rw [h3]
        simp
        omega

/-- C3: `run` performs at most `max_steps` model-call-plus-tool-execution
steps before returning; and against a model client that always requests
tool calls, a non-interactive loop with `max_steps = 2` returns the
step-limit outcome having executed exactly 2 tool rounds and 2 model
calls — it never executes a third round. -/
theorem step_limit_termination (generate : Generate) (tools : ToolRegistry)
    (confirm : Nat → Bool) :
    (∀ (cfg : AgentLoopConfig) (st : AgentState),
        (run generate tools cfg confirm st).2.tool_rounds ≤ st.tool_rounds + cfg.max_steps
      ∧ (run generate tools cfg confirm st).2.llm_calls ≤ st.llm_calls + cfg.max_steps)
    ∧ ((∀ msgs, ∃ r, generate msgs true = .ok r ∧ r.tool_calls ≠ []) →
        ∀ (token_limit : Nat) (st : AgentState),
          st.tool_rounds = 0 → st.llm_calls = 0 →
          (run generate tools ⟨2, token_limit, false⟩ confirm st).1 =
            "Task not completed after 2 steps"
          ∧ (run generate tools ⟨2, token_limit, false⟩ confirm st).2.tool_rounds = 2
          ∧ (run generate tools ⟨2, token_limit, false⟩ confirm st).2.llm_calls = 2) := by
  constructor
  · intro cfg st
    exact run_loop_counters generate tools cfg confirm cfg.max_steps 0 st
  · intro halways token_limit st hrounds hcalls
    obtain ⟨h1, h2, h3⟩ := run_loop_always_tools generate tools
      ⟨2, token_limit, false⟩ confirm halways rfl 2 0 st
    refine ⟨?_, ?_, ?_⟩
    · show (run_loop generate tools ⟨2, token_limit, false⟩ confirm 2 0 st).1 =
        "Task not completed after 2 steps"
      rw [h1]
      rw [show ({ max_steps := 2, token_limit := token_limit, interactive := false } :
        AgentLoopConfig).max_steps = 2 from rfl]
      decide
    · show (run_loop generate tools ⟨2, token_limit, false⟩ confirm 2 0 st).2.tool_rounds = 2
      rw [h2, hrounds]
    · show (run_loop generate tools ⟨2, token_limit, false⟩ confirm 2 0 st).2.llm_calls = 2
      rw [h3, hcalls]

/-- Witness for C3 at a concrete always-tool-calling client: the run
stops with the step-limit message after exactly two tool rounds. -/
theorem step_limit_termination_witness :
    (run (fun _ _ => Except.ok ⟨"go", [⟨"1", ⟨"t", "{}"⟩⟩], "tool_calls"⟩) []
        ⟨2, 1000, false⟩ (fun _ => true) { messages := [] }).1 =
      "Task not completed after 2 steps"
    ∧ (run (fun _ _ => Except.ok ⟨"go", [⟨"1", ⟨"t", "{}"⟩⟩], "tool_calls"⟩) []
        ⟨2, 1000, false⟩ (fun _ => true) { messages := [] }).2.tool_rounds = 2 := by
  obtain ⟨h1, h2, h3⟩ :=
    (step_limit_termination (fun _ _ => Except.ok ⟨"go", [⟨"1", ⟨"t", "{}"⟩⟩], "tool_calls"⟩)
      [] (fun _ => true)).2
    (fun msgs => ⟨⟨"go", [⟨"1", ⟨"t", "{}"⟩⟩], "tool_calls"⟩, rfl, by decide⟩)
    1000 { messages := [] } rfl rfl
  exact ⟨h1, h2⟩

/-- One step of the pairing scan over a non-tool message: the context is
reset from that message. -/
theorem pairing_from_cons_not_tool (ctx : Option (List ToolCall)) (m : Message)
    (rest : List Message) (h : m.role ≠ Role.tool) :
    pairing_from ctx (m :: rest) =
      pairing_from (if m.role = Role.assistant then some m.tool_calls else none) rest := by
  simp only [pairing_from]
  rw [if_neg h]

/-- A pairing scan that accepts a concatenation accepts the second part
from some context. -/
theorem pairing_from_append (l2 : List Message) :
    ∀ (l1 : List Message) (ctx : Option (List ToolCall)),
      pairing_from ctx (l1 ++ l2) = true → ∃ c, pairing_from c l2 = true := by
  intro l1
  induction l1 with
  | nil => intro ctx h; exact ⟨ctx, h⟩
  | cons m rest ih =>
      intro ctx h
      rw [List.cons_append] at h
      by_cases hrole : m.role = Role.tool
      · rcases hid : m.tool_call_id with _ | i
        · rcases hctx : ctx with _ | calls <;>
            simp [pairing_from, hrole, hid, hctx] at h
        · rcases hctx : ctx with _ | calls
          · simp [pairing_from, hrole, hid, hctx] at h
          · simp only [pairing_from, if_pos hrole, hid, hctx, Bool.and_eq_true] at h
            exact ih (some calls) h.2
      · rw [pairing_from_cons_not_tool ctx m (rest ++ l2) hrole] at h
        exact ih _ h

/-- A list of length two is a two-element literal. -/
theorem exists_pair_of_length_two {α : Type} (l : List α) (h : l.length = 2) :
    ∃ a b, l = [a, b] := by
  rcases l with _ | ⟨a, _ | ⟨b, _ | ⟨c, t⟩⟩⟩
  · simp at h
  · simp at h
  · exact ⟨a, b, rfl⟩
  · simp at h

/-- The messages of the C1 counterexample: a paired conversation whose
last assistant turn issued two tool calls, both already answered. -/
def c1_messages : List Message :=
  [{ role := Role.system, content := "0123456789" },
   { role := Role.user, content := "0123456789" },
   { role := Role.assistant, content := "0123456789",
     tool_calls := [⟨"id1", ⟨"t", "{}"⟩⟩, ⟨"id2", ⟨"t", "{}"⟩⟩] },
   { role := Role.tool, content := "0123456789", tool_call_id := some "id1",
     name := some "t" },
   { role := Role.tool, content := "0123456789", tool_call_id := some "id2",
     name := some "t" }]

/-- Counterexample to C1 as stated: on a five-message conversation
satisfying the pairing invariant, above a token limit of 10, a
successful summarization keeps only the last two messages — the two
tool results — whose assistant message is summarized away, so the
pairing invariant no longer holds afterwards (and the retained suffix
was not extended). -/
theorem summarization_breaks_pairing :
    pairing_invariant c1_messages = true
    ∧ 3 < c1_messages.length
    ∧ 10 < estimate_tokens c1_messages
    ∧ pairing_invariant
        (summarize_messages (fun _ _ => .ok ⟨"S", [], "stop"⟩) c1_messages).1 = false
    ∧ pairing_invariant
        (maybe_summarize (fun _ _ => .ok ⟨"S", [], "stop"⟩) 10
          { messages := c1_messages }).messages = false := by
  decide

/-- C1 (amended): summarization retains exactly the first message plus
the last two messages and never extends the retained suffix; the
pairing invariant is preserved provided the second-to-last message
before summarization is not a tool-result message.  (As the
counterexample shows, the claim as stated fails when the retained
two-message suffix starts inside a block of tool results.) -/
theorem summarization_pairing_amended (generate : Generate)
    (messages : List Message)
    (hinv : pairing_invariant messages = true)
    (hlen : 3 < messages.length)
    (hsecond : ((messages.drop (messages.length - 2)).headD default).role ≠ Role.tool) :
    pairing_invariant (summarize_messages generate messages).1 = true := by
  rcases messages with _ | ⟨m0, rest⟩
  · simp at hlen
  · have hm0 : m0.role ≠ Role.tool := by
      intro hm0
      rcases hid : m0.tool_call_id with _ | i <;>
        simp [pairing_invariant, pairing_from, hm0, hid] at hinv
    obtain ⟨a, b, hab⟩ := exists_pair_of_length_two
      ((m0 :: rest).drop ((m0 :: rest).length - 2))
      (by rw [List.length_drop]; omega)
    have ha : a.role ≠ Role.tool := by
      rw [hab] at hsecond
      exact hsecond
    have hsuffix : ∃ c, pairing_from c [a, b] = true := by
      refine pairing_from_append [a, b]
        ((m0 :: rest).take ((m0 :: rest).length - 2)) none ?_
      rw [← hab, List.take_append_drop]
      exact hinv
    obtain ⟨c, hc⟩ := hsuffix
    have hb : pairing_from
        (if a.role = Role.assistant then some a.tool_calls else none) [b] = true := by
      rw [pairing_from_cons_not_tool c a [b] ha] at hc
      exact hc
    rw [summarize_messages, if_neg (by omega)]
    rcases hgen : generate
        [{ role := Role.user,
           content := build_summary_prompt
             (((m0 :: rest).drop 1).take ((m0 :: rest).length - 3)) }] false
      with e | resp
    · simp only [hgen]
      exact hinv
    · simp only [hgen]
      show pairing_from none
        ((m0 :: rest).headD default ::
          { role := Role.system,
            content := "## Previous Conversation Summary\n\n" ++ resp.content } ::
          (m0 :: rest).drop ((m0 :: rest).length - 2)) = true
      rw [hab]
      show pairing_from none (m0 ::
        { role := Role.system,
          content := "## Previous Conversation Summary\n\n" ++ resp.content } ::
        a :: [b]) = true
      rw [pairing_from_cons_not_tool none m0 _ hm0]
      rw [pairing_from_cons_not_tool _ _ _ (fun h => Role.noConfusion h)]
      rw [pairing_from_cons_not_tool _ a [b] ha]
      exact hb

/-- Witness for the amended C1: on a five-message conversation whose
second-to-last message is a user message, summarization preserves the
pairing invariant. -/
theorem summarization_pairing_amended_witness :
    pairing_invariant
      (summarize_messages (fun _ _ => .ok ⟨"S", [], "stop"⟩)
        [{ role := Role.system, content := "s" },
         { role := Role.user, content := "u1" },
         { role := Role.assistant, content := "a1" },
         { role := Role.user, content := "u2" },
         { role := Role.assistant, content := "a2" }]).1 = true :=
  summarization_pairing_amended (fun _ _ => .ok ⟨"S", [], "stop"⟩)
    [{ role := Role.system, content := "s" },
     { role := Role.user, content := "u1" },
     { role := Role.assistant, content := "a1" },
     { role := Role.user, content := "u2" },
     { role := Role.assistant, content := "a2" }]
    (by decide) (by decide) (by decide)

/-- `str.replace(old, new, 1)` rewrites exactly the first occurrence: the
input splits at the least index where `old` matches, and the output is
the part before it, then `new`, then the part after it. -/
theorem pyReplaceOne_first_occurrence (old new : List Char) :
    ∀ s : List Char, containsSub old s = true →
      ∃ i, i + old.length ≤ s.length
        ∧ (∀ j, j < i → old.isPrefixOf (s.drop j) = false)
        ∧ old.isPrefixOf (s.drop i) = true
        ∧ pyReplaceOne old new s = s.take i ++ new ++ s.drop (i + old.length) := by
  rcases old with _ | ⟨o, ot⟩
  · intro s _
    refine ⟨0, by simp, fun j hj => absurd hj (Nat.not_lt_zero j), by simp, ?_⟩
    simp [pyReplaceOne]
  · intro s
    induction s with
    | nil => intro h; simp [containsSub] at h
    | cons c rest ih =>
        intro h
        by_cases hpre : (o :: ot).isPrefixOf (c :: rest) = true
        · refine ⟨0, ?_, fun j hj => absurd hj (Nat.not_lt_zero j), by simpa using hpre, ?_⟩
          · have := (List.isPrefixOf_iff_prefix.mp hpre).length_le
            simpa using this
          · show replaceFirstCore o ot new (c :: rest) = _
            rw [replaceFirstCore, if_pos hpre]
            simp [List.drop_succ_cons]
        · have hrest : containsSub (o :: ot) rest = true := by
            simpa [containsSub, hpre] using h
          obtain ⟨i, hb, hmin, hocc, heq⟩ := ih hrest
          refine ⟨i + 1, ?_, ?_, ?_, ?_⟩
          · simp only [List.length_cons]
            simp only [List.length_cons] at hb
            omega
          · intro j hj
            cases j with
            | zero =>
                simpa using Bool.eq_false_iff.mpr hpre
            | succ j =>
                rw [List.drop_succ_cons]
                exact hmin j (by omega)
          · rw [List.drop_succ_cons]
            exact hocc
          · show replaceFirstCore o ot new (c :: rest) = _
            rw [replaceFirstCore, if_neg hpre]
            have heq2 : replaceFirstCore o ot new rest =
                rest.take i ++ new ++ rest.drop (i + (o :: ot).length) := heq
            rw [heq2]
            have hidx : i + 1 + (o :: ot).length = (i + (o :: ot).length) + 1 := by omega
            rw [hidx, List.take_succ_cons, List.drop_succ_cons]
            simp

/-- Length bookkeeping for the all-occurrence replacement scan: each of
the counted occurrences trades `old.length` characters for
`new.length`. -/
theorem replaceAllGo_length (o : Char) (ot new : List Char) :
    ∀ (fuel : Nat) (s : List Char), s.length ≤ fuel →
      ((replaceAllGo o ot new fuel s).length : ℤ)
        = s.length + (countGo o ot fuel s : ℤ) *
            ((new.length : ℤ) - ((ot.length : ℤ) + 1)) := by
  intro fuel
  induction fuel with
  | zero =>
      intro s hs
      rcases s with _ | ⟨c, rest⟩
      · simp [replaceAllGo, countGo]
      · simp at hs
  | succ fuel ih =>
      intro s hs
      rcases s with _ | ⟨c, rest⟩
      · simp [replaceAllGo, countGo]
      · by_cases hpre : (o :: ot).isPrefixOf (c :: rest) = true
        · have hot : ot.length ≤ rest.length := by
            have := (List.isPrefixOf_iff_prefix.mp hpre).length_le
            simpa using this
          have hlen : (rest.drop ot.length).length ≤ fuel := by
            rw [List.length_drop]
            simp only [List.length_cons] at hs
            omega
          simp only [replaceAllGo, countGo, if_pos hpre]
          rw [List.length_append]
          push_cast
          rw [ih (rest.drop ot.length) hlen]
          rw [List.length_drop]
          push_cast [Nat.cast_sub hot]
          simp only [List.length_cons]
          push_cast
          ring
        · have hlen : rest.length ≤ fuel := by
            simp only [List.length_cons] at hs
            omega
          simp only [replaceAllGo, countGo, if_neg hpre]
          rw [List.length_cons]
          push_cast
          rw [ih rest hlen]
          simp only [List.length_cons]
          push_cast
          ring

/-- Length bookkeeping for the empty-pattern replacement: `new` is
inserted once per position, ends included. -/
theorem replaceEmptyAll_length (new : List Char) :
    ∀ s : List Char,
      (replaceEmptyAll new s).length = s.length + (s.length + 1) * new.length := by
  intro s
  induction s with
  | nil => simp [replaceEmptyAll]
  | cons c rest ih =>
      simp only [replaceEmptyAll, List.length_append, List.length_cons, ih]
      ring

/-- `str.replace(old, new)` rewrites every counted occurrence: the output
length differs from the input length by the occurrence count times the
length difference of the patterns. -/
theorem pyReplaceAll_length (old new s : List Char) :
    ((pyReplaceAll old new s).length : ℤ)
      = s.length + (pyCount old s : ℤ) * ((new.length : ℤ) - old.length) := by
  rcases old with _ | ⟨o, ot⟩
  · show ((replaceEmptyAll new s).length : ℤ) = _
    rw [replaceEmptyAll_length new s]
    simp only [pyCount, List.length_nil]
    push_cast
    ring
  · show ((replaceAllGo o ot new s.length s).length : ℤ) = _
    rw [replaceAllGo_length o ot new s.length s le_rfl]
    simp only [pyCount, countCore, List.length_cons]
    push_cast
    ring

/-- C4: when the file contains `old_string`, the edit with
`replace_all=false` succeeds and rewrites exactly the first occurrence;
with `replace_all=true` it succeeds, rewrites every occurrence (the
length changes by the count times the pattern-length difference) and
reports the occurrence count; when the file does not contain
`old_string` the edit fails with the not-found error and the file is
unchanged.  On content holding `old_string` three times the reported
count is 3. -/
theorem edit_file_replacement_spec (diff : List Char → List Char → String)
    (path : String) (content old_string new_string : List Char) :
    (containsSub old_string content = true →
      ((edit_file_execute diff path (some content) old_string new_string false).1.success
          = true
        ∧ (edit_file_execute diff path (some content) old_string new_string false).2.2
          = some (pyReplaceOne old_string new_string content)
        ∧ ∃ i, i + old_string.length ≤ content.length
            ∧ (∀ j, j < i → old_string.isPrefixOf (content.drop j) = false)
            ∧ old_string.isPrefixOf (content.drop i) = true
            ∧ pyReplaceOne old_string new_string content
              = content.take i ++ new_string ++ content.drop (i + old_string.length))
      ∧ ((edit_file_execute diff path (some content) old_string new_string true).1.success
          = true
        ∧ (edit_file_execute diff path (some content) old_string new_string true).2.1
          = some (pyCount old_string content)
        ∧ (edit_file_execute diff path (some content) old_string new_string true).2.2
          = some (pyReplaceAll old_string new_string content)
        ∧ ((pyReplaceAll old_string new_string content).length : ℤ)
          = content.length +
              (pyCount old_string content : ℤ) *
                ((new_string.length : ℤ) - old_string.length)))
    ∧ (containsSub old_string content = false → ∀ replace_all : Bool,
        edit_file_execute diff path (some content) old_string new_string replace_all
          = (⟨false, "",
              some ("Old string not found in file: " ++
                (old_string.take 50).asString ++ "...")⟩,
             none, some content))
    ∧ (edit_file_execute diff "f.txt" (some "ab_ab_ab".data) "ab".data "xy".data true).2.1
        = some 3
    ∧ (edit_file_execute diff "f.txt" (some "ab_ab_ab".data) "ab".data "xy".data true).2.2
        = some "xy_xy_xy".data := by
  refine ⟨fun hc => ⟨⟨?_, ?_, ?_⟩, ⟨?_, ?_, ?_, ?_⟩⟩, fun hc replace_all => ?_, rfl, rfl⟩
  · simp [edit_file_execute, hc]
  · simp [edit_file_execute, hc]
  · exact pyReplaceOne_first_occurrence old_string new_string content hc
  · simp [edit_file_execute, hc]
  · simp [edit_file_execute, hc]
  · simp [edit_file_execute, hc]
  · exact pyReplaceAll_length old_string new_string content
  · simp [edit_file_execute, hc]

/-- Witness for C4: on the file content `ab_ab_ab`, editing `ab → xy`
with `replace_all=false` yields `xy_ab_ab`; with `replace_all=true` it
yields `xy_xy_xy` with reported count 3; editing with a missing
`old_string` fails and leaves the content unchanged. -/
theorem edit_file_replacement_spec_witness :
    (edit_file_execute (fun _ _ => "") "f.txt" (some "ab_ab_ab".data)
        "ab".data "xy".data false).2.2 = some "xy_ab_ab".data
    ∧ (edit_file_execute (fun _ _ => "") "f.txt" (some "ab_ab_ab".data)
        "ab".data "xy".data true).2.1 = some 3
    ∧ (edit_file_execute (fun _ _ => "") "f.txt" (some "ab_ab_ab".data)
        "zz".data "xy".data true).2.2 = some "ab_ab_ab".data := by
  refine ⟨?_, ?_, ?_⟩
  · have h := ((edit_file_replacement_spec (fun _ _ => "") "f.txt" "ab_ab_ab".data
      "ab".data "xy".data).1 (by decide)).1.2.1
    rw [h]
    decide
  · exact (edit_file_replacement_spec (fun _ _ => "") "f.txt" "ab_ab_ab".data
      "ab".data "xy".data).2.2.1
  · have h := (edit_file_replacement_spec (fun _ _ => "") "f.txt" "ab_ab_ab".data
      "zz".data "xy".data).2.1 (by decide) true
    rw [h]

/-- The stored todo list of the C6 counterexample: one existing entry
with id `X`. -/
def c6_state : TodoState :=
  { todos := [⟨"X", "a", "pending", "a"⟩],
    file := some [⟨"X", "a", "pending", "a"⟩] }

/-- The C6 counterexample submission: two of its entries have status
in_progress, and the first shares the id `X` of an existing todo with a
later entry that rewrites it back to pending. -/
def c6_submission : List SubmittedTodo :=
  [⟨some "X", "a", "in_progress", "a"⟩,
   ⟨some "X", "a", "pending", "a"⟩,
   ⟨some "Y", "b", "in_progress", "b"⟩]

/-- Counterexample to C6 as stated: this submission contains two entries
with status in_progress, yet the operation succeeds and rewrites the
on-disk file.  The two entries sharing the existing id `X` update one
shared dictionary in place, so when the validation runs both of its
slots show the final status pending and only one in_progress entry is
counted. -/
theorem todo_two_in_progress_accepted :
    (c6_submission.filter (fun s => s.status == "in_progress")).length = 2
    ∧ (todo_write_execute (fun _ => "z") c6_state c6_submission).1.success = true
    ∧ (todo_write_execute (fun _ => "z") c6_state c6_submission).2.file ≠ c6_state.file := by
  decide

/-- With pairwise-distinct ids, each entry is the only one carrying its
id. -/
theorem filter_eq_singleton_of_pairwise (subs : List TodoItem)
    (hpair : subs.Pairwise (fun a b => a.id ≠ b.id)) :
    ∀ t ∈ subs, subs.filter (fun u => u.id == t.id) = [t] := by
  induction subs with
  | nil => intro t ht; simp at ht
  | cons s rest ih =>
      intro t ht
      obtain ⟨hs, hrest⟩ := List.pairwise_cons.mp hpair
      rcases List.mem_cons.mp ht with rfl | ht
      · rw [List.filter_cons, if_pos (by simp)]
        have hnil : rest.filter (fun u => u.id == t.id) = [] := by
          refine List.filter_eq_nil.mpr (fun u hu => ?_)
          simpa using (hs u hu).symm
        rw [hnil]
      · rw [List.filter_cons, if_neg (by simpa using hs t ht)]
        exact ih hrest t ht

/-- With pairwise-distinct ids the merge rewrites nothing: every slot of
`updated_todos` is the submitted entry itself. -/
theorem updated_todos_eq_of_pairwise (old subs : List TodoItem)
    (hpair : subs.Pairwise (fun a b => a.id ≠ b.id)) :
    updated_todos old subs = subs := by
  have hslot : ∀ t ∈ subs,
      (if old.any (fun o => o.id == t.id)
        then (last_update subs t.id).getD t else t) = t := by
    intro t ht
    by_cases hmem : old.any (fun o => o.id == t.id)
    · rw [if_pos hmem]
      unfold last_update
      rw [filter_eq_singleton_of_pairwise subs hpair t ht]
      rfl
    · rw [if_neg hmem]
  unfold updated_todos
  rw [List.map_congr_left hslot]
  simp

/-- C6 (amended): for every submission whose assigned entry ids are
pairwise distinct, two or more entries with status in_progress are
rejected before any write and the on-disk task-list file is unchanged.
(As the counterexample shows, when a submission repeats the id of an
existing todo, later entries overwrite earlier ones in place and only
the final statuses are counted, so the claim as stated fails.) -/
theorem todo_single_in_progress_amended (fresh : Nat → String) (st : TodoState)
    (submitted : List SubmittedTodo)
    (hids : (assign_ids fresh submitted).Pairwise (fun a b => a.id ≠ b.id))
    (hcount : 1 < count_in_progress (assign_ids fresh submitted)) :
    (todo_write_execute fresh st submitted).1.success = false
    ∧ (todo_write_execute fresh st submitted).2.file = st.file := by
  have hupd : updated_todos st.todos (assign_ids fresh submitted)
      = assign_ids fresh submitted :=
    updated_todos_eq_of_pairwise st.todos (assign_ids fresh submitted) hids
  simp only [todo_write_execute, hupd]
  rw [if_pos hcount]
  exact ⟨rfl, rfl⟩

/-- Witness for the amended C6: submitting two distinct-id entries both
in_progress is rejected and the (absent) file stays absent. -/
theorem todo_single_in_progress_amended_witness :
    (todo_write_execute (fun _ => "z") { todos := [], file := none }
      [⟨some "A", "t1", "in_progress", "t1"⟩,
       ⟨some "B", "t2", "in_progress", "t2"⟩]).1.success = false
    ∧ (todo_write_execute (fun _ => "z") { todos := [], file := none }
      [⟨some "A", "t1", "in_progress", "t1"⟩,
       ⟨some "B", "t2", "in_progress", "t2"⟩]).2.file = none :=
  todo_single_in_progress_amended (fun _ => "z") { todos := [], file := none }
    [⟨some "A", "t1", "in_progress", "t1"⟩,
     ⟨some "B", "t2", "in_progress", "t2"⟩]
    (by decide) (by decide)

end TongyAgent
